import Mathlib

/-!
Shallow embedding of the HubSpot ticket/conversation core of the nanoclaw
repository (file src/container/agent-runner/src/azure-mcp-stdio.ts, class
HubSpotApi).  Vendor calls are modelled as explicit function parameters
(a call that can throw returns an Option or Except value); JavaScript
strings are Lean strings, with the JavaScript string operations the source
uses re-implemented over character lists so that every definition computes.
-/

namespace Nanoclaw

/-! ## JavaScript string and truthiness primitives -/

/-- Truthiness of an optional JavaScript string: undefined and the empty
string are falsy, every other string is truthy. -/
def truthyStr : Option String → Bool
  | none => false
  | some s => !(s == "")

/-- Truthiness of `xs?.length` for an optional JavaScript array: undefined
and the empty array are falsy. -/
def truthyList : Option (List String) → Bool
  | none => false
  | some l => !l.isEmpty

/-- JavaScript `x || ''` on an optional string: a falsy value gives the
empty string, a truthy string gives itself. -/
def orEmpty : Option String → String
  | none => ""
  | some s => s

/-- JavaScript `x || undefined` on an optional string: the empty string is
coerced to undefined. -/
def orUndefined : Option String → Option String
  | none => none
  | some s => if s == "" then none else some s

/-- Character-list lowercasing, modelling `String.prototype.toLowerCase`
(faithful on the ASCII range the source deals with). -/
def lowerStr (s : String) : String := ⟨s.toList.map Char.toLower⟩

/-- Does the haystack start with the needle? -/
def beginsWith : List Char → List Char → Bool
  | [], _ => true
  | _ :: _, [] => false
  | a :: as, b :: bs => a == b && beginsWith as bs

/-- Does the needle occur contiguously anywhere in the haystack? -/
def containsSeq (needle : List Char) : List Char → Bool
  | [] => needle.isEmpty
  | b :: bs => beginsWith needle (b :: bs) || containsSeq needle bs

/-- JavaScript `haystack.includes(needle)`: contiguous substring test. -/
def strIncludes (haystack needle : String) : Bool :=
  containsSeq needle.toList haystack.toList

/-- Trim leading and trailing whitespace from a character list. -/
def trimChars (cs : List Char) : List Char :=
  ((cs.dropWhile Char.isWhitespace).reverse.dropWhile Char.isWhitespace).reverse

/-- JavaScript `String.prototype.trim`. -/
def jsTrim (s : String) : String := ⟨trimChars s.toList⟩

/-- JavaScript `s.split(sep)` for a one-character separator. -/
def splitOnChar (sep : Char) : List Char → List (List Char)
  | [] => [[]]
  | c :: rest =>
    match splitOnChar sep rest with
    | [] => if c == sep then [[], []] else [[c]]
    | l :: ls => if c == sep then [] :: l :: ls else (c :: l) :: ls

/-- JavaScript `line.replace(/c/g, '')`: drop every occurrence of one
character. -/
def removeChar (c : Char) (cs : List Char) : List Char :=
  cs.filter (fun d => !(d == c))

/-- Collapse every maximal run of three or more newlines into exactly two,
modelling `replace(/\n\x7b3,\x7d/g, '\n\n')`.  The second argument counts the
newlines of the run currently being read. -/
def collapseNlAux : List Char → Nat → List Char
  | [], run => if 3 ≤ run then ['\n', '\n'] else List.replicate run '\n'
  | c :: rest, run =>
    if c == '\n' then collapseNlAux rest (run + 1)
    else (if 3 ≤ run then ['\n', '\n'] else List.replicate run '\n')
      ++ (c :: collapseNlAux rest 0)

/-- String-level wrapper of `collapseNlAux`. -/
def collapseNewlines (s : String) : String := ⟨collapseNlAux s.toList 0⟩

/-! ## Timestamps

JavaScript `Date` values are abstracted by the epoch-milliseconds instant
they denote: `ISOString` stands for the ISO-8601 rendering of that instant
(`toISOString` output), which re-parses to the same milliseconds. -/

/-- The ISO-8601 rendering of an epoch-milliseconds instant. -/
structure ISOString where
  millis : Int
deriving DecidableEq, Repr

/-- `new Date(m).toISOString()`: succeeds exactly on the ECMAScript time
range, throws (here: `none`) outside it.  A NaN input is handled by the
caller passing `none` into `Option.bind`. -/
def toISO (m : Int) : Option ISOString :=
  if m.natAbs ≤ 8640000000000000 then some ⟨m⟩ else none

/-- Decimal digit value of a character, if any. -/
def digitVal (c : Char) : Option Nat :=
  if c.isDigit then some (c.toNat - 48) else none

/-- Hexadecimal digit value of a character, if any. -/
def hexVal (c : Char) : Option Nat :=
  if c.isDigit then some (c.toNat - 48)
  else if 97 ≤ c.toNat && c.toNat ≤ 102 then some (c.toNat - 87)
  else if 65 ≤ c.toNat && c.toNat ≤ 70 then some (c.toNat - 55)
  else none

/-- Read the longest prefix of digits of the given base; `none` when there
is no digit at all (NaN in JavaScript). -/
def parseRadix (base : Nat) (dv : Char → Option Nat) (cs : List Char) : Option Nat :=
  let ds := cs.takeWhile (fun c => (dv c).isSome)
  if ds.isEmpty then none
  else some (ds.foldl (fun acc c => acc * base + (dv c).getD 0) 0)

/-- JavaScript `parseInt(s)` with no radix argument: skip leading
whitespace, read an optional sign, then either a `0x`-prefixed hexadecimal
or a decimal digit prefix; `none` models NaN. -/
def parseIntJS (s : String) : Option Int :=
  let cs := s.toList.dropWhile Char.isWhitespace
  let signed : Int × List Char :=
    match cs with
    | '-' :: rest => (-1, rest)
    | '+' :: rest => (1, rest)
    | _ => (1, cs)
  let mag : Option Nat :=
    match signed.2 with
    | '0' :: 'x' :: rest => parseRadix 16 hexVal rest
    | '0' :: 'X' :: rest => parseRadix 16 hexVal rest
    | _ => parseRadix 10 digitVal signed.2
  mag.map (fun n => signed.1 * (n : Int))

/-! ## Directory Cache (HubSpotApi.listOwners / findOwnersByName) -/

/-- A raw owner record as the owners directory returns it (`id`, optional
`email`, `firstName`, `lastName`). -/
structure RawOwner where
  id : String
  email : Option String := none
  firstName : Option String := none
  lastName : Option String := none
deriving DecidableEq, Repr

/-- A cached owner entry as built by `listOwners`. -/
structure Owner where
  id : String
  email : String
  firstName : String
  lastName : String
  fullName : String
deriving DecidableEq, Repr

/-- One raw owner mapped into the cache entry: missing names default to
the empty string and the full name is the trimmed space join. -/
def mkOwner (o : RawOwner) : Owner :=
  let firstName := orEmpty o.firstName
  let lastName := orEmpty o.lastName
  { id := o.id
    email := orEmpty o.email
    firstName := firstName
    lastName := lastName
    fullName := jsTrim (firstName ++ " " ++ lastName) }

/-- One call of `listOwners` as explicit state passing.  `fetched` is the
outcome of the upstream directory page request the call would issue
(`Except.error` models a thrown call), `cache` the `ownerCache` field
before the call.  The result carries the returned sequence, the cache
after the call, and whether the upstream directory was queried at all. -/
def listOwners (fetched : Except Unit (List RawOwner)) (cache : Option (List Owner)) :
    List Owner × Option (List Owner) × Bool :=
  match cache with
  | some cached => (cached, some cached, false)
  | none =>
    match fetched with
    | Except.ok results =>
      let owners := results.map mkOwner
      (owners, some owners, true)
    | Except.error _ => ([], none, true)

/-- The projection `findOwnersByName` returns per matching owner. -/
structure OwnerSummary where
  id : String
  email : String
  fullName : String
deriving DecidableEq, Repr

/-- Projection of an owner to the summary shape. -/
def ownerSummary (o : Owner) : OwnerSummary :=
  { id := o.id, email := o.email, fullName := o.fullName }

/-- The filter of `findOwnersByName`: the lowered search term occurs in the
lowered full name, first name, last name or email. -/
def ownerMatches (lowerSearch : String) (o : Owner) : Bool :=
  strIncludes (lowerStr o.fullName) lowerSearch ||
  strIncludes (lowerStr o.firstName) lowerSearch ||
  strIncludes (lowerStr o.lastName) lowerSearch ||
  strIncludes (lowerStr o.email) lowerSearch

/-- `findOwnersByName` applied to the owner sequence `listOwners`
produced. -/
def findOwnersByName (searchName : String) (owners : List Owner) : List OwnerSummary :=
  let lowerSearch := lowerStr searchName
  (owners.filter (ownerMatches lowerSearch)).map ownerSummary

/-! ## Filter Translator (HubSpotApi.listTickets) -/

/-- The optional filter argument of `listTickets`. -/
structure ListTicketsFilters where
  groups : Option (List String) := none
  statuses : Option (List String) := none
  priorities : Option (List String) := none
  owners : Option (List String) := none
  searchText : Option String := none
deriving DecidableEq, Repr

/-- One entry of the clause list `listTickets` pushes (the source calls
the list `filterGroups`): property name, operator, and either a value
array (IN) or a single value (CONTAINS_TOKEN). -/
structure FilterClause where
  propertyName : String
  operator : String
  values : Option (List String) := none
  value : Option String := none
deriving DecidableEq, Repr

/-- The fixed ticket property set requested on both listing paths. -/
def TICKET_PROPERTIES : List String :=
  ["subject", "content", "group", "hs_ticket_priority", "hs_pipeline_stage",
   "createdate", "hubspot_owner_id"]

/-- One `if (filters?.xs?.length) filterGroups.push(...)` step: a truthy
(non-empty) array contributes one IN clause on the given property. -/
def inClauseIf (propName : String) (vals : Option (List String)) : List FilterClause :=
  match vals with
  | some (v :: vs) => [{ propertyName := propName, operator := "IN", values := some (v :: vs) }]
  | _ => []

/-- The `if (filters?.searchText) filterGroups.push(...)` step: a truthy
(non-empty) search text contributes one CONTAINS_TOKEN clause on
`subject`. -/
def searchTextClause (t : Option String) : List FilterClause :=
  match t with
  | some s =>
    if s == "" then []
    else [{ propertyName := "subject", operator := "CONTAINS_TOKEN", value := some s }]
  | none => []

/-- The clause list `listTickets` accumulates, in push order. -/
def listTicketsFilterGroups (filters : Option ListTicketsFilters) : List FilterClause :=
  inClauseIf "group" (filters.bind (fun f => f.groups)) ++
  inClauseIf "hs_pipeline_stage" (filters.bind (fun f => f.statuses)) ++
  inClauseIf "hs_ticket_priority" (filters.bind (fun f => f.priorities)) ++
  inClauseIf "hubspot_owner_id" (filters.bind (fun f => f.owners)) ++
  searchTextClause (filters.bind (fun f => f.searchText))

/-- The vendor request `listTickets` issues: a structured search
(`doSearch`) or the plain listing page (`getPage`). -/
inductive TicketsRequest where
  | doSearch (filterGroups : List (List FilterClause)) (properties : List String)
      (limit : Nat) (sorts : List String) (after : String)
  | getPage (limit : Nat) (properties : List String) (archived : Bool)
deriving DecidableEq, Repr

/-- Which request `listTickets` issues for the given filters: a non-empty
clause list goes to the search endpoint with all clauses inside one filter
group, page size 100, no sorts; an empty clause list goes to the plain
listing with the same page size and property set. -/
def listTicketsRequest (filters : Option ListTicketsFilters) : TicketsRequest :=
  let filterGroups := listTicketsFilterGroups filters
  if 0 < filterGroups.length then
    TicketsRequest.doSearch [filterGroups] TICKET_PROPERTIES 100 [] "0"
  else
    TicketsRequest.getPage 100 TICKET_PROPERTIES false

/-- A raw vendor record: id plus a property map. -/
structure RawRecord where
  id : String
  properties : List (String × Option String)
deriving DecidableEq, Repr

/-- The ticket shape `listTickets` returns. -/
structure HubSpotTicket where
  id : String
  properties : List (String × Option String)
deriving DecidableEq, Repr

/-- Full `listTickets`: issue the request chosen from the filters against
the vendor client and map every returned record to its id and
properties. -/
def listTickets (filters : Option ListTicketsFilters)
    (client : TicketsRequest → List RawRecord) : List HubSpotTicket :=
  (client (listTicketsRequest filters)).map
    (fun t => { id := t.id, properties := t.properties })

/-! ## Conversation Assembler and Text Normalizer
(HubSpotApi.getTicketEmails / getEmailContent) -/

/-- A raw conversation-message record as the vendor returns it: the eight
requested properties (each possibly absent) plus the record-level creation
timestamp.  The fields named `hs_email_from` and `hs_email_to` model the
properties of the same names. -/
structure EmailRecord where
  id : String
  hs_email_text : Option String := none
  hs_email_html : Option String := none
  hs_email_subject : Option String := none
  hs_email_from : Option String := none
  hs_email_to : Option String := none
  hs_timestamp : Option String := none
  hs_email_date : Option String := none
  hs_createdate : Option String := none
  createdAt : Option ISOString := none
deriving DecidableEq, Repr

/-- The normalized message shape `getTicketEmails` returns.  `fromAddr`
and `toAddr` model the source fields named `from` and `to` (both Lean
keywords). -/
structure TicketEmail where
  id : String
  subject : Option String := none
  fromAddr : Option String := none
  toAddr : Option String := none
  text : Option String := none
  createdAt : Option ISOString := none
deriving DecidableEq, Repr

/-- The post-conversion cleanup applied to an HTML-converted body: split
into lines, keep only lines that are non-empty after removing quote
markers and trimming, rejoin, collapse runs of three or more newlines into
two, trim the whole. -/
def cleanupHtmlText (s : String) : String :=
  let kept := (splitOnChar '\n' s.toList).filter
    (fun line => !(trimChars (removeChar '>' line)).isEmpty)
  jsTrim (collapseNewlines ⟨List.intercalate ['\n'] kept⟩)

/-- Timestamp resolution of `getEmailContent`: the first truthy field
among `hs_email_date` (epoch millis via parseInt), `hs_timestamp` (epoch
millis via parseInt), `hs_createdate` (date string, parsed by the
platform parser `dateParse`), then the record-level `createdAt`, then the
current time.  A chosen field that fails to parse yields `none`, which
models the `toISOString` throw the surrounding try/catch turns into a
dropped message. -/
def resolveCreatedAt (dateParse : String → Option Int) (email : EmailRecord)
    (now : ISOString) : Option ISOString :=
  if truthyStr email.hs_email_date then
    (parseIntJS (orEmpty email.hs_email_date)).bind toISO
  else if truthyStr email.hs_timestamp then
    (parseIntJS (orEmpty email.hs_timestamp)).bind toISO
  else if truthyStr email.hs_createdate then
    (dateParse (orEmpty email.hs_createdate)).bind toISO
  else
    match email.createdAt with
    | some iso => some iso
    | none => some now

/-- `getEmailContent`: fetch one message record and normalize it.
`htmlConv` is the external html-to-text conversion (with the fixed
selector options), `dateParse` the platform date-string parser, `fetch`
the by-id vendor call (`none` models a throw).  A `none` result models the
catch branch: the message is dropped. -/
def getEmailContent (htmlConv : String → String) (dateParse : String → Option Int)
    (fetch : String → Option EmailRecord) (emailId : String) (now : ISOString) :
    Option TicketEmail :=
  match fetch emailId with
  | none => none
  | some email =>
    let rawContent :=
      if truthyStr email.hs_email_html then orEmpty email.hs_email_html
      else if truthyStr email.hs_email_text then orEmpty email.hs_email_text
      else ""
    let cleanText :=
      if truthyStr email.hs_email_html then
        cleanupHtmlText (htmlConv (orEmpty email.hs_email_html))
      else rawContent
    match resolveCreatedAt dateParse email now with
    | none => none
    | some created =>
      some { id := email.id
             text := some cleanText
             subject := orUndefined email.hs_email_subject
             fromAddr := orUndefined email.hs_email_from
             toAddr := orUndefined email.hs_email_to
             createdAt := some created }

/-- The sort key of the final sort: epoch millis of the message timestamp,
zero when the timestamp is falsy. -/
def emailSortKey (e : TicketEmail) : Int :=
  match e.createdAt with
  | some iso => iso.millis
  | none => 0

/-- The comparator order of the final sort: ascending by sort key. -/
def emailDateLe (a b : TicketEmail) : Prop := emailSortKey a ≤ emailSortKey b

instance : DecidableRel emailDateLe := fun a b => Int.decLe (emailSortKey a) (emailSortKey b)

instance : IsTotal TicketEmail emailDateLe := ⟨fun a b => Int.le_total (emailSortKey a) (emailSortKey b)⟩

instance : IsTrans TicketEmail emailDateLe := ⟨fun _ _ _ hab hbc => le_trans hab hbc⟩

/-- The body of `getTicketEmails` after the linked message ids are known:
return immediately on zero ids, otherwise fetch each id in order, keep the
successes, and stable-sort ascending by resolved timestamp (JavaScript
`Array.prototype.sort` is stable, so insertion sort computes the same
sequence).  The second component counts the per-message fetch calls
issued. -/
def getTicketEmailsFrom (htmlConv : String → String) (dateParse : String → Option Int)
    (fetch : String → Option EmailRecord) (emailIds : List String) (now : ISOString) :
    List TicketEmail × Nat :=
  if emailIds.isEmpty then ([], 0)
  else
    let emails := emailIds.filterMap
      (fun eid => getEmailContent htmlConv dateParse fetch eid now)
    (emails.insertionSort emailDateLe, emailIds.length)

/-- Full `getTicketEmails`: resolve the linked message ids from the
ticket (`ticketAssoc`; `none` models a ticket without the associations
block, which the source coerces to an empty id list) and assemble. -/
def getTicketEmails (htmlConv : String → String) (dateParse : String → Option Int)
    (ticketAssoc : String → Option (List String))
    (fetch : String → Option EmailRecord) (ticketId : String) (now : ISOString) :
    List TicketEmail × Nat :=
  getTicketEmailsFrom htmlConv dateParse fetch ((ticketAssoc ticketId).getD []) now

/-! ## Record Mutator (HubSpotApi.addNoteToTicket) -/

/-- The association block of the note-create request. -/
structure NoteAssociation where
  toId : String
  associationCategory : String
  associationTypeId : Nat
deriving DecidableEq, Repr

/-- The note-create request body. -/
structure NoteCreateRequest where
  hs_timestamp : String
  hs_note_body : String
  associations : List NoteAssociation
deriving DecidableEq, Repr

/-- The request `addNoteToTicket` sends: note body, current time, and the
fixed HUBSPOT_DEFINED association of type 16 to the ticket. -/
def noteRequest (nowMs : Int) (ticketId noteBody : String) : NoteCreateRequest :=
  { hs_timestamp := toString nowMs
    hs_note_body := noteBody
    associations := [{ toId := ticketId
                       associationCategory := "HUBSPOT_DEFINED"
                       associationTypeId := 16 }] }

/-- `addNoteToTicket`: issue the create call and convert its outcome to a
boolean — the catch branch maps any thrown error to `false`. -/
def addNoteToTicket (create : NoteCreateRequest → Except Unit Unit) (nowMs : Int)
    (ticketId noteBody : String) : Bool :=
  match create (noteRequest nowMs ticketId noteBody) with
  | Except.ok _ => true
  | Except.error _ => false

/-! ## Helper lemmas on the clause construction -/

/-- Is this clause an IN clause on the given property? -/
def isInClauseOn (p : String) (c : FilterClause) : Bool :=
  c.propertyName == p && c.operator == "IN"

/-- Is this clause the CONTAINS_TOKEN clause on `subject`? -/
def isSubjectTokenClause (c : FilterClause) : Bool :=
  c.propertyName == "subject" && c.operator == "CONTAINS_TOKEN"

lemma countP_inClauseIf (q : FilterClause → Bool) (p : String) (vals : Option (List String)) :
    List.countP q (inClauseIf p vals) =
      if truthyList vals
      then (if q { propertyName := p, operator := "IN", values := vals, value := none }
            then 1 else 0)
      else 0 := by
  rcases vals with _ | ⟨_ | ⟨v, vs⟩⟩ <;>
    simp [inClauseIf, truthyList, List.countP_cons, List.countP_nil]

lemma countP_searchTextClause (q : FilterClause → Bool) (t : Option String) :
    List.countP q (searchTextClause t) =
      if truthyStr t
      then (if q { propertyName := "subject", operator := "CONTAINS_TOKEN",
                   values := none, value := t }
            then 1 else 0)
      else 0 := by
  rcases t with _ | s
  · simp [searchTextClause, truthyStr]
  · by_cases h : s = "" <;> simp [searchTextClause, truthyStr, h, List.countP_cons]

lemma countP_in_self (p : String) (vals : Option (List String)) :
    List.countP (isInClauseOn p) (inClauseIf p vals) = if truthyList vals then 1 else 0 := by
  rw [countP_inClauseIf]
  cases h : truthyList vals <;> simp [isInClauseOn]

lemma countP_in_other (p q : String) (hpq : (q == p) = false) (vals : Option (List String)) :
    List.countP (isInClauseOn p) (inClauseIf q vals) = 0 := by
  rw [countP_inClauseIf]
  cases h : truthyList vals <;> simp [isInClauseOn, hpq]

lemma countP_in_search (p : String) (t : Option String) :
    List.countP (isInClauseOn p) (searchTextClause t) = 0 := by
  have hck : (("CONTAINS_TOKEN" : String) == "IN") = false := by decide
  rw [countP_searchTextClause]
  cases h : truthyStr t <;> simp [isInClauseOn, hck]

lemma countP_search_in (p : String) (vals : Option (List String)) :
    List.countP isSubjectTokenClause (inClauseIf p vals) = 0 := by
  have hik : (("IN" : String) == "CONTAINS_TOKEN") = false := by decide
  rw [countP_inClauseIf]
  cases h : truthyList vals <;> simp [isSubjectTokenClause, hik]

lemma countP_search_self (t : Option String) :
    List.countP isSubjectTokenClause (searchTextClause t) = if truthyStr t then 1 else 0 := by
  rw [countP_searchTextClause]
  cases h : truthyStr t <;> simp [isSubjectTokenClause]

lemma inClauseIf_eq_nil (p : String) (vals : Option (List String))
    (h : truthyList vals = false) : inClauseIf p vals = [] := by
  rcases vals with _ | ⟨_ | ⟨v, vs⟩⟩ <;> simp_all [inClauseIf, truthyList]

lemma searchTextClause_eq_nil (t : Option String) (h : truthyStr t = false) :
    searchTextClause t = [] := by
  rcases t with _ | s
  · rfl
  · by_cases hs : s = ""
    · simp [searchTextClause, hs]
    · exfalso
      simp [truthyStr, hs] at h

/-! ## Claim theorems -/

/-- C1: for every filter argument, `listTickets` builds exactly one IN
clause per truthy (non-empty) array criterion on the corresponding ticket
property, plus one CONTAINS_TOKEN clause on `subject` exactly when a
non-empty free-text term is supplied (the source tests JavaScript
truthiness, so an empty array or empty string counts as not supplied);
each clause carries the supplied value array or term; and when at least
one clause exists the issued request is a single structured search with
all clauses inside one AND filter group, page size 100 and no sorts. -/
theorem listTickets_builds_criterion_clauses (filters : Option ListTicketsFilters) :
    (List.countP (isInClauseOn "group") (listTicketsFilterGroups filters)
        = if truthyList (filters.bind (fun f => f.groups)) then 1 else 0)
    ∧ (List.countP (isInClauseOn "hs_pipeline_stage") (listTicketsFilterGroups filters)
        = if truthyList (filters.bind (fun f => f.statuses)) then 1 else 0)
    ∧ (List.countP (isInClauseOn "hs_ticket_priority") (listTicketsFilterGroups filters)
        = if truthyList (filters.bind (fun f => f.priorities)) then 1 else 0)
    ∧ (List.countP (isInClauseOn "hubspot_owner_id") (listTicketsFilterGroups filters)
        = if truthyList (filters.bind (fun f => f.owners)) then 1 else 0)
    ∧ (List.countP isSubjectTokenClause (listTicketsFilterGroups filters)
        = if truthyStr (filters.bind (fun f => f.searchText)) then 1 else 0)
    ∧ (∀ vs, filters.bind (fun f => f.groups) = some vs → vs ≠ [] →
        ({ propertyName := "group", operator := "IN", values := some vs } : FilterClause)
          ∈ listTicketsFilterGroups filters)
    ∧ (∀ vs, filters.bind (fun f => f.statuses) = some vs → vs ≠ [] →
        ({ propertyName := "hs_pipeline_stage", operator := "IN", values := some vs } : FilterClause)
          ∈ listTicketsFilterGroups filters)
    ∧ (∀ vs, filters.bind (fun f => f.priorities) = some vs → vs ≠ [] →
        ({ propertyName := "hs_ticket_priority", operator := "IN", values := some vs } : FilterClause)
          ∈ listTicketsFilterGroups filters)
    ∧ (∀ vs, filters.bind (fun f => f.owners) = some vs → vs ≠ [] →
        ({ propertyName := "hubspot_owner_id", operator := "IN", values := some vs } : FilterClause)
          ∈ listTicketsFilterGroups filters)
    ∧ (∀ s, filters.bind (fun f => f.searchText) = some s → s ≠ "" →
        ({ propertyName := "subject", operator := "CONTAINS_TOKEN", value := some s } : FilterClause)
          ∈ listTicketsFilterGroups filters)
    ∧ (listTicketsFilterGroups filters ≠ [] →
        listTicketsRequest filters
          = TicketsRequest.doSearch [listTicketsFilterGroups filters]
              TICKET_PROPERTIES 100 [] "0") := by
  refine ⟨?_, ?_, ?_, ?_, ?_, ?_, ?_, ?_, ?_, ?_, ?_⟩
  · simp only [listTicketsFilterGroups, List.countP_append, countP_in_self, countP_in_search]
    rw [countP_in_other "group" "hs_pipeline_stage" (by decide),
      countP_in_other "group" "hs_ticket_priority" (by decide),
      countP_in_other "group" "hubspot_owner_id" (by decide)]
    cases h : truthyList (filters.bind (fun f => f.groups)) <;> simp
  · simp only [listTicketsFilterGroups, List.countP_append, countP_in_self, countP_in_search]
    rw [countP_in_other "hs_pipeline_stage" "group" (by decide),
      countP_in_other "hs_pipeline_stage" "hs_ticket_priority" (by decide),
      countP_in_other "hs_pipeline_stage" "hubspot_owner_id" (by decide)]
    cases h : truthyList (filters.bind (fun f => f.statuses)) <;> simp
  · simp only [listTicketsFilterGroups, List.countP_append, countP_in_self, countP_in_search]
    rw [countP_in_other "hs_ticket_priority" "group" (by decide),
      countP_in_other "hs_ticket_priority" "hs_pipeline_stage" (by decide),
      countP_in_other "hs_ticket_priority" "hubspot_owner_id" (by decide)]
    cases h : truthyList (filters.bind (fun f => f.priorities)) <;> simp
  · simp only [listTicketsFilterGroups, List.countP_append, countP_in_self, countP_in_search]
    rw [countP_in_other "hubspot_owner_id" "group" (by decide),
      countP_in_other "hubspot_owner_id" "hs_pipeline_stage" (by decide),
      countP_in_other "hubspot_owner_id" "hs_ticket_priority" (by decide)]
    cases h : truthyList (filters.bind (fun f => f.owners)) <;> simp
  · simp only [listTicketsFilterGroups, List.countP_append,
      countP_search_in, countP_search_self]
    cases h : truthyStr (filters.bind (fun f => f.searchText)) <;> simp
  · intro vs hvs hne
    rcases vs with _ | ⟨v, vs2⟩
    · exact absurd rfl hne
    · simp [listTicketsFilterGroups, inClauseIf, hvs, List.mem_append]
  · intro vs hvs hne
    rcases vs with _ | ⟨v, vs2⟩
    · exact absurd rfl hne
    · simp [listTicketsFilterGroups, inClauseIf, hvs, List.mem_append]
  · intro vs hvs hne
    rcases vs with _ | ⟨v, vs2⟩
    · exact absurd rfl hne
    · simp [listTicketsFilterGroups, inClauseIf, hvs, List.mem_append]
  · intro vs hvs hne
    rcases vs with _ | ⟨v, vs2⟩
    · exact absurd rfl hne
    · simp [listTicketsFilterGroups, inClauseIf, hvs, List.mem_append]
  · intro s hs hne
    have hbe : (s == "") = false := by simpa using hne
    simp [listTicketsFilterGroups, searchTextClause, hs, hbe, List.mem_append]
  · intro h
    simp only [listTicketsRequest]
    rw [if_pos (List.length_pos.mpr h)]

/-- Concrete filter argument used by the C1 witness. -/
def sampleFilters : ListTicketsFilters :=
  { groups := some ["billing"], owners := some ["o1", "o2"], searchText := some "refund" }

/-- Witness for C1 at a concrete filter argument. -/
theorem listTickets_builds_criterion_clauses_witness :
    (List.countP (isInClauseOn "group") (listTicketsFilterGroups (some sampleFilters)) = 1)
    ∧ (({ propertyName := "group", operator := "IN", values := some ["billing"] } : FilterClause)
        ∈ listTicketsFilterGroups (some sampleFilters))
    ∧ listTicketsRequest (some sampleFilters)
        = TicketsRequest.doSearch [listTicketsFilterGroups (some sampleFilters)]
            TICKET_PROPERTIES 100 [] "0" := by
  refine ⟨?_, ?_, ?_⟩
  · rw [(listTickets_builds_criterion_clauses (some sampleFilters)).1]; decide
  · exact (listTickets_builds_criterion_clauses (some sampleFilters)).2.2.2.2.2.1
      ["billing"] rfl (by decide)
  · exact (listTickets_builds_criterion_clauses (some sampleFilters)).2.2.2.2.2.2.2.2.2.2
      (by decide)

/-- C2: when every criterion is empty or absent, `listTickets` builds no
search clause and issues the plain listing call with the same page size
100 and the same property set and no filters, and on every path the
result is the issued request's records shaped to id and properties. -/
theorem listTickets_empty_criteria_plain_listing (filters : Option ListTicketsFilters)
    (client : TicketsRequest → List RawRecord)
    (hg : truthyList (filters.bind (fun f => f.groups)) = false)
    (hst : truthyList (filters.bind (fun f => f.statuses)) = false)
    (hp : truthyList (filters.bind (fun f => f.priorities)) = false)
    (ho : truthyList (filters.bind (fun f => f.owners)) = false)
    (ht : truthyStr (filters.bind (fun f => f.searchText)) = false) :
    listTicketsFilterGroups filters = []
    ∧ listTicketsRequest filters = TicketsRequest.getPage 100 TICKET_PROPERTIES false
    ∧ listTickets filters client
        = (client (TicketsRequest.getPage 100 TICKET_PROPERTIES false)).map
            (fun t => { id := t.id, properties := t.properties })
    ∧ (∀ filters2 : Option ListTicketsFilters,
        listTickets filters2 client
          = (client (listTicketsRequest filters2)).map
              (fun t => { id := t.id, properties := t.properties })) := by
  have hnil : listTicketsFilterGroups filters = [] := by
    simp [listTicketsFilterGroups, inClauseIf_eq_nil _ _ hg, inClauseIf_eq_nil _ _ hst,
      inClauseIf_eq_nil _ _ hp, inClauseIf_eq_nil _ _ ho, searchTextClause_eq_nil _ ht]
  have hreq : listTicketsRequest filters = TicketsRequest.getPage 100 TICKET_PROPERTIES false := by
    simp [listTicketsRequest, hnil]
  refine ⟨hnil, hreq, ?_, fun filters2 => rfl⟩
  rw [listTickets, hreq]

/-- Witness for C2: no filter object at all goes through the plain
listing call. -/
theorem listTickets_empty_criteria_plain_listing_witness :
    listTicketsFilterGroups none = []
    ∧ listTicketsRequest none = TicketsRequest.getPage 100 TICKET_PROPERTIES false
    ∧ listTickets none (fun _ => [{ id := "t1", properties := [("subject", some "Hi")] }])
        = [{ id := "t1", properties := [("subject", some "Hi")] }] := by
  have h := listTickets_empty_criteria_plain_listing none
    (fun _ => [{ id := "t1", properties := [("subject", some "Hi")] }])
    rfl rfl rfl rfl rfl
  refine ⟨h.1, h.2.1, ?_⟩
  rw [h.2.2.1]
  rfl

/-- C5: `listOwners` returns the cached sequence untouched, without
querying the upstream directory, whenever the cache is populated; a first
successful call populates the cache with the mapped owner set, after
which any later call returns that same sequence however the upstream
would now answer; a failed fetch returns the empty sequence, leaves the
cache empty, and the next call queries the upstream again. -/
theorem listOwners_cache_once (fetched fetched2 : Except Unit (List RawOwner))
    (rs : List RawOwner) (c : List Owner) :
    listOwners fetched (some c) = (c, some c, false)
    ∧ listOwners (Except.ok rs) none = (rs.map mkOwner, some (rs.map mkOwner), true)
    ∧ listOwners fetched2 (listOwners (Except.ok rs) none).2.1
        = (rs.map mkOwner, some (rs.map mkOwner), false)
    ∧ listOwners (Except.error ()) none = ([], none, true)
    ∧ listOwners fetched2 (listOwners (Except.error ()) none).2.1
        = listOwners fetched2 none := by
  exact ⟨rfl, rfl, rfl, rfl, rfl⟩

/-- C8: `addNoteToTicket` is a total boolean function of the create
call's outcome — a successful create yields true, a rejected create is
caught and yields false. -/
theorem addNoteToTicket_boolean (create : NoteCreateRequest → Except Unit Unit)
    (nowMs : Int) (ticketId noteBody : String) :
    (create (noteRequest nowMs ticketId noteBody) = Except.ok () →
        addNoteToTicket create nowMs ticketId noteBody = true)
    ∧ (∀ e, create (noteRequest nowMs ticketId noteBody) = Except.error e →
        addNoteToTicket create nowMs ticketId noteBody = false) := by
  constructor
  · intro h
    simp [addNoteToTicket, h]
  · intro e h
    simp [addNoteToTicket, h]

/-- Witness for C8: a create call that always rejects yields false, one
that always succeeds yields true. -/
theorem addNoteToTicket_boolean_witness :
    addNoteToTicket (fun _ => Except.error ()) 0 "t1" "note" = false
    ∧ addNoteToTicket (fun _ => Except.ok ()) 0 "t1" "note" = true :=
  ⟨(addNoteToTicket_boolean (fun _ => Except.error ()) 0 "t1" "note").2 () rfl,
   (addNoteToTicket_boolean (fun _ => Except.ok ()) 0 "t1" "note").1 rfl⟩

/-- C9: a ticket whose associations resolve to zero linked message ids
makes `getTicketEmails` return the empty sequence with zero per-message
fetch calls. -/
theorem getTicketEmails_zero_associations (htmlConv : String → String)
    (dateParse : String → Option Int) (ticketAssoc : String → Option (List String))
    (fetch : String → Option EmailRecord) (ticketId : String) (now : ISOString)
    (h : (ticketAssoc ticketId).getD [] = []) :
    getTicketEmails htmlConv dateParse ticketAssoc fetch ticketId now = ([], 0) := by
  rw [getTicketEmails, h]
  rfl

/-- Witness for C9: a ticket record without an associations block. -/
theorem getTicketEmails_zero_associations_witness :
    getTicketEmails (fun s => s) (fun _ => none) (fun _ => none) (fun _ => none) "t1" ⟨0⟩
      = ([], 0) :=
  getTicketEmails_zero_associations (fun s => s) (fun _ => none) (fun _ => none)
    (fun _ => none) "t1" ⟨0⟩ rfl

/-- C3: whatever subset of the per-message fetches succeeds, the
assembled result is a permutation of exactly the successfully fetched and
normalized messages (each failure is silently dropped and no error
surfaces — the function is total), it is sorted ascending by resolved
timestamp, and a falsy timestamp is given sort key zero without the
stored message being altered. -/
theorem getTicketEmails_partial_sorted (htmlConv : String → String)
    (dateParse : String → Option Int) (fetch : String → Option EmailRecord)
    (emailIds : List String) (now : ISOString) :
    ((getTicketEmailsFrom htmlConv dateParse fetch emailIds now).1).Perm
        (emailIds.filterMap (fun eid => getEmailContent htmlConv dateParse fetch eid now))
    ∧ List.Sorted emailDateLe (getTicketEmailsFrom htmlConv dateParse fetch emailIds now).1
    ∧ (∀ e : TicketEmail, e.createdAt = none → emailSortKey e = 0) := by
  rcases emailIds with _ | ⟨i, is⟩
  · refine ⟨?_, ?_, ?_⟩
    · simp [getTicketEmailsFrom]
    · simp [getTicketEmailsFrom]
    · intro e he
      simp [emailSortKey, he]
  · refine ⟨?_, ?_, ?_⟩
    · simp only [getTicketEmailsFrom, List.isEmpty_cons, Bool.false_eq_true, if_false]
      exact List.perm_insertionSort emailDateLe _
    · simp only [getTicketEmailsFrom, List.isEmpty_cons, Bool.false_eq_true, if_false]
      exact List.sorted_insertionSort emailDateLe _
    · intro e he
      simp [emailSortKey, he]

/-- Concrete per-message fetch for the C3 witness: the spec's example of
three linked messages where fetching the second throws. -/
def sampleFetch : String → Option EmailRecord
  | "e1" => some { id := "e1", hs_email_text := some "one", hs_email_date := some "2000" }
  | "e2" => none
  | "e3" => some { id := "e3", hs_email_text := some "three", hs_email_date := some "1000" }
  | _ => none

/-- Witness for C3 at the three-message example. -/
theorem getTicketEmails_partial_sorted_witness :
    ((getTicketEmailsFrom (fun s => s) (fun _ => none) sampleFetch ["e1", "e2", "e3"] ⟨0⟩).1).Perm
        (["e1", "e2", "e3"].filterMap
          (fun eid => getEmailContent (fun s => s) (fun _ => none) sampleFetch eid ⟨0⟩))
    ∧ List.Sorted emailDateLe
        (getTicketEmailsFrom (fun s => s) (fun _ => none) sampleFetch ["e1", "e2", "e3"] ⟨0⟩).1
    ∧ emailSortKey { id := "x" } = 0 :=
  ⟨(getTicketEmails_partial_sorted (fun s => s) (fun _ => none) sampleFetch
      ["e1", "e2", "e3"] ⟨0⟩).1,
   (getTicketEmails_partial_sorted (fun s => s) (fun _ => none) sampleFetch
      ["e1", "e2", "e3"] ⟨0⟩).2.1,
   (getTicketEmails_partial_sorted (fun s => s) (fun _ => none) sampleFetch
      ["e1", "e2", "e3"] ⟨0⟩).2.2 { id := "x" } rfl⟩

/-! ## Substring characterization for the owner lookup -/

lemma beginsWith_iff (n : List Char) : ∀ h : List Char,
    (beginsWith n h = true ↔ ∃ t, h = n ++ t) := by
  induction n with
  | nil =>
    intro h
    simp [beginsWith]
  | cons a as ih =>
    intro h
    cases h with
    | nil =>
      simp [beginsWith]
    | cons b bs =>
      simp only [beginsWith, Bool.and_eq_true, beq_iff_eq, List.cons_append]
      constructor
      · rintro ⟨rfl, hb⟩
        obtain ⟨t, rfl⟩ := (ih bs).mp hb
        exact ⟨t, rfl⟩
      · rintro ⟨t, ht⟩
        injection ht with h1 h2
        exact ⟨h1.symm, (ih bs).mpr ⟨t, h2⟩⟩

lemma containsSeq_iff (n : List Char) : ∀ h : List Char,
    (containsSeq n h = true ↔ ∃ pre post, h = pre ++ n ++ post) := by
  intro h
  induction h with
  | nil =>
    simp only [containsSeq]
    constructor
    · intro hn
      exact ⟨[], [], by simp [List.isEmpty_iff.mp hn]⟩
    · rintro ⟨pre, post, hp⟩
      have h2 := hp.symm
      simp only [List.append_eq_nil] at h2
      simp [List.isEmpty_iff, h2.1.2]
  | cons b bs ih =>
    simp only [containsSeq, Bool.or_eq_true, beginsWith_iff, ih]
    constructor
    · rintro (⟨t, ht⟩ | ⟨pre, post, hp⟩)
      · exact ⟨[], t, by simpa using ht⟩
      · exact ⟨b :: pre, post, by simp [hp]⟩
    · rintro ⟨pre, post, hp⟩
      cases pre with
      | nil =>
        exact Or.inl ⟨post, by simpa using hp⟩
      | cons p ps =>
        rw [List.cons_append, List.cons_append] at hp
        injection hp with h1 h2
        exact Or.inr ⟨ps, post, h2⟩

lemma strIncludes_iff (haystack needle : String) :
    strIncludes haystack needle = true
      ↔ ∃ pre post, haystack.toList = pre ++ needle.toList ++ post := by
  rw [strIncludes]
  exact containsSeq_iff needle.toList haystack.toList

lemma containsSeq_nil_needle (h : List Char) : containsSeq [] h = true := by
  cases h <;> simp [containsSeq, beginsWith, List.isEmpty]

lemma ownerMatches_empty_term (o : Owner) : ownerMatches (lowerStr "") o = true := by
  have hn : (lowerStr "").data = [] := rfl
  simp [ownerMatches, strIncludes, String.toList, hn, containsSeq_nil_needle]

/-- C6: `findOwnersByName` returns a summary exactly for the owners whose
lowered full name, first name, last name or email contains the lowered
term as a contiguous substring (logical OR over the four fields); when no
owner matches, the result is the empty sequence, not an error. -/
theorem findOwnersByName_or_substring (term : String) (owners : List Owner) :
    (∀ s : OwnerSummary, s ∈ findOwnersByName term owners ↔
      ∃ o, o ∈ owners ∧ s = ownerSummary o ∧
        ((∃ pre post, (lowerStr o.fullName).toList = pre ++ (lowerStr term).toList ++ post)
         ∨ (∃ pre post, (lowerStr o.firstName).toList = pre ++ (lowerStr term).toList ++ post)
         ∨ (∃ pre post, (lowerStr o.lastName).toList = pre ++ (lowerStr term).toList ++ post)
         ∨ (∃ pre post, (lowerStr o.email).toList = pre ++ (lowerStr term).toList ++ post)))
    ∧ ((∀ o ∈ owners, ownerMatches (lowerStr term) o = false) →
        findOwnersByName term owners = []) := by
  constructor
  · intro s
    rw [findOwnersByName]
    simp only [List.mem_map, List.mem_filter]
    constructor
    · rintro ⟨o, ⟨ho, hm⟩, rfl⟩
      refine ⟨o, ho, rfl, ?_⟩
      rw [ownerMatches] at hm
      simp only [Bool.or_eq_true, strIncludes_iff] at hm
      rcases hm with ((h1 | h2) | h3) | h4
      · exact Or.inl h1
      · exact Or.inr (Or.inl h2)
      · exact Or.inr (Or.inr (Or.inl h3))
      · exact Or.inr (Or.inr (Or.inr h4))
    · rintro ⟨o, ho, rfl, hdisj⟩
      refine ⟨o, ⟨ho, ?_⟩, rfl⟩
      rw [ownerMatches]
      simp only [Bool.or_eq_true, strIncludes_iff]
      rcases hdisj with h1 | h2 | h3 | h4
      · exact Or.inl (Or.inl (Or.inl h1))
      · exact Or.inl (Or.inl (Or.inr h2))
      · exact Or.inl (Or.inr h3)
      · exact Or.inr h4
  · intro hnone
    rw [findOwnersByName]
    have : owners.filter (ownerMatches (lowerStr term)) = [] := by
      rw [List.filter_eq_nil_iff]
      intro o ho
      simp [hnone o ho]
    rw [this]
    rfl

/-- Concrete owner directory for the C6 witness. -/
def sampleOwners : List Owner :=
  [mkOwner { id := "1", email := some "ryan@x.com", firstName := some "Ryan",
             lastName := some "Jones" },
   mkOwner { id := "2", email := some "kate@x.com", firstName := some "Kate",
             lastName := some "Smith" }]

/-- Witness for C6: a term matching no owner yields the empty sequence. -/
theorem findOwnersByName_or_substring_witness :
    findOwnersByName "zzz" sampleOwners = [] :=
  (findOwnersByName_or_substring "zzz" sampleOwners).2 (by decide)

/-- C10: the empty search term matches every owner, so `findOwnersByName`
returns the whole cached set projected to summaries, and for any term the
result is a subsequence of that projection (never an error). -/
theorem findOwnersByName_empty_term (owners : List Owner) :
    findOwnersByName "" owners = owners.map ownerSummary
    ∧ (∀ term : String, (findOwnersByName term owners).Sublist (owners.map ownerSummary)) := by
  constructor
  · rw [findOwnersByName]
    have hall : owners.filter (ownerMatches (lowerStr "")) = owners :=
      List.filter_eq_self.mpr (fun o _ => ownerMatches_empty_term o)
    rw [hall]
  · intro term
    exact List.Sublist.map ownerSummary (List.filter_sublist owners)

/-- C4 (amended): the timestamp source field is chosen by existence
(JavaScript truthiness) alone, in the order email date, generic
timestamp, creation date, record-level creation timestamp, current time;
when the chosen field exists but fails to parse, the conversion throws
and the whole message is dropped (`getEmailContent` returns none) instead
of falling back to the next field; every message that is returned carries
a non-null timestamp. -/
theorem timestamp_first_existing_field (htmlConv : String → String)
    (dateParse : String → Option Int) (email : EmailRecord) (emailId : String)
    (now : ISOString) :
    (truthyStr email.hs_email_date = true →
      resolveCreatedAt dateParse email now
        = (parseIntJS (orEmpty email.hs_email_date)).bind toISO)
    ∧ (truthyStr email.hs_email_date = false → truthyStr email.hs_timestamp = true →
      resolveCreatedAt dateParse email now
        = (parseIntJS (orEmpty email.hs_timestamp)).bind toISO)
    ∧ (truthyStr email.hs_email_date = false → truthyStr email.hs_timestamp = false →
       truthyStr email.hs_createdate = true →
      resolveCreatedAt dateParse email now
        = (dateParse (orEmpty email.hs_createdate)).bind toISO)
    ∧ (truthyStr email.hs_email_date = false → truthyStr email.hs_timestamp = false →
       truthyStr email.hs_createdate = false →
      resolveCreatedAt dateParse email now = some (email.createdAt.getD now))
    ∧ (resolveCreatedAt dateParse email now = none →
      getEmailContent htmlConv dateParse (fun _ => some email) emailId now = none)
    ∧ (∀ msg, getEmailContent htmlConv dateParse (fun _ => some email) emailId now = some msg →
      ∃ iso : ISOString, msg.createdAt = some iso) := by
  refine ⟨?_, ?_, ?_, ?_, ?_, ?_⟩
  · intro h1
    simp [resolveCreatedAt, h1]
  · intro h1 h2
    simp [resolveCreatedAt, h1, h2]
  · intro h1 h2 h3
    simp [resolveCreatedAt, h1, h2, h3]
  · intro h1 h2 h3
    cases hca : email.createdAt <;> simp [resolveCreatedAt, h1, h2, h3, hca]
  · intro hres
    simp [getEmailContent, hres]
  · intro msg hmsg
    rw [getEmailContent] at hmsg
    cases hres : resolveCreatedAt dateParse email now with
    | none => simp [hres] at hmsg
    | some created =>
      simp only [hres] at hmsg
      injection hmsg with hmsg2
      exact ⟨created, by rw [← hmsg2]⟩

/-- Concrete message record for the C4 witness and counterexample: its
email-date field exists but does not parse, while its generic timestamp
field parses. -/
def sampleBadDateEmail : EmailRecord :=
  { id := "e1", hs_email_date := some "not-a-number", hs_timestamp := some "1000" }

/-- Witness for C4 (amended), at the concrete record: the existing
email-date field is the one resolved, and since it fails to parse the
message is dropped. -/
theorem timestamp_first_existing_field_witness :
    resolveCreatedAt (fun _ => none) sampleBadDateEmail ⟨0⟩
        = (parseIntJS "not-a-number").bind toISO
    ∧ getEmailContent (fun s => s) (fun _ => none)
        (fun _ => some sampleBadDateEmail) "e1" ⟨0⟩ = none :=
  ⟨(timestamp_first_existing_field (fun s => s) (fun _ => none) sampleBadDateEmail
      "e1" ⟨0⟩).1 rfl,
   (timestamp_first_existing_field (fun s => s) (fun _ => none) sampleBadDateEmail
      "e1" ⟨0⟩).2.2.2.2.1 (by decide)⟩

/-- C4 counterexample to the claim as stated: the email-date field exists
but does not parse while the generic timestamp field would parse to 1000;
the claim requires falling back to the generic timestamp field, but the
code drops the whole message (`getEmailContent` returns none), so no
message with the fallback timestamp is returned. -/
theorem timestamp_no_fallback_counterexample :
    truthyStr (some "not-a-number") = true
    ∧ parseIntJS "not-a-number" = none
    ∧ parseIntJS "1000" = some 1000
    ∧ getEmailContent (fun s => s) (fun _ => none)
        (fun _ => some sampleBadDateEmail) "e1" ⟨0⟩ = none := by
  refine ⟨rfl, by decide, by decide, by decide⟩

/-- C7 (amended): when the markup field is absent (falsy) the plain-text
body is passed through completely unchanged — no trimming is applied;
when the markup field is present it takes precedence and the returned
body is the converted and cleaned markup, ignoring the plain-text
field. -/
theorem body_normalization_policy (htmlConv : String → String)
    (dateParse : String → Option Int) (email : EmailRecord) (emailId : String)
    (now : ISOString) :
    (truthyStr email.hs_email_html = false →
      ∀ msg, getEmailContent htmlConv dateParse (fun _ => some email) emailId now = some msg →
        msg.text = some (if truthyStr email.hs_email_text
                         then orEmpty email.hs_email_text else ""))
    ∧ (truthyStr email.hs_email_html = true →
      ∀ msg, getEmailContent htmlConv dateParse (fun _ => some email) emailId now = some msg →
        msg.text = some (cleanupHtmlText (htmlConv (orEmpty email.hs_email_html)))) := by
  constructor
  · intro hh msg hmsg
    rw [getEmailContent] at hmsg
    cases hres : resolveCreatedAt dateParse email now with
    | none => simp [hres] at hmsg
    | some created =>
      simp only [hres, hh, Bool.false_eq_true, if_false] at hmsg
      injection hmsg with hmsg2
      rw [← hmsg2]
  · intro hh msg hmsg
    rw [getEmailContent] at hmsg
    cases hres : resolveCreatedAt dateParse email now with
    | none => simp [hres] at hmsg
    | some created =>
      simp only [hres, hh, if_true] at hmsg
      injection hmsg with hmsg2
      rw [← hmsg2]

/-- Concrete message record for the C7 witness and counterexample: no
markup field, a plain-text body with surrounding whitespace. -/
def samplePlainEmail : EmailRecord :=
  { id := "e1", hs_email_text := some "  hi  ", createdAt := some ⟨5⟩ }

/-- Witness for C7 (amended): the plain-text body comes through with its
whitespace intact. -/
theorem body_normalization_policy_witness :
    ({ id := "e1", text := some "  hi  ", createdAt := some ⟨5⟩ } : TicketEmail).text
      = some (if truthyStr samplePlainEmail.hs_email_text
              then orEmpty samplePlainEmail.hs_email_text else "") :=
  (body_normalization_policy (fun s => s) (fun _ => none) samplePlainEmail "e1" ⟨0⟩).1
    rfl { id := "e1", text := some "  hi  ", createdAt := some ⟨5⟩ } (by decide)

/-- C7 counterexample to the claim as stated: with no markup field and
plain text with surrounding whitespace, the returned body keeps the
whitespace, so it is not the trimmed plain text the claim requires. -/
theorem plain_text_not_trimmed_counterexample :
    (getEmailContent (fun s => s) (fun _ => none)
        (fun _ => some samplePlainEmail) "e1" ⟨0⟩).map TicketEmail.text
      = some (some "  hi  ")
    ∧ jsTrim "  hi  " = "hi"
    ∧ ("  hi  " : String) ≠ "hi" := by
  refine ⟨by decide, by decide, by decide⟩

end Nanoclaw
